import Mathlib

/-!
Shallow embedding of the outcome-statistics core of the safehaven repository
(src/modules/bet.py and src/modules/kellycriterion.py), together with proofs
checking the natural-language specification against it.

Numeric values are modelled by exact rationals wherever the Python code does
field arithmetic, and by real numbers where it takes logarithms, exponentials
and roots (scipy.stats.gmean).  Fallible Python code (AssertionError checks,
IndexError, numpy broadcast ValueError) is modelled in the Except monad.
-/

namespace SafeHaven

/-- Errors raised by the modelled code paths: the AssertionError cases of
`Bet.__init__`, `BetComparison.__init__` and `weighted_geom_mean`, plus the
IndexError and the numpy broadcast ValueError that unchecked code paths can
hit.  Constructor names follow the specification's error taxonomy. -/
inductive PyError where
  | invalidDistLength
  | invalidDistSize
  | invalidDistWeights
  | invalidRatioLength
  | invalidRatioSum
  | lengthMismatch
  | indexError
  | broadcastError
deriving DecidableEq

/-- Default-tolerance np.isclose on exact rationals:
absolute(a - b) <= atol + rtol * absolute(b) with atol = 1e-08, rtol = 1e-05,
which is how both `BetComparison.__init__` and `weighted_geom_mean` test that
a ratio sums to 1. -/
def npIsClose (a b : ℚ) : Bool :=
  decide (|a - b| ≤ 1 / 100000000 + 1 / 100000 * |b|)

/-- Arithmetic mean of a list of rationals (np.mean).  Division by zero on the
empty list yields the junk value 0, matching the fact that np.mean of an empty
array yields nan without raising. -/
def listMean (xs : List ℚ) : ℚ := xs.sum / xs.length

/-- Python list indexing `l[i]`, raising IndexError when out of range. -/
def pyListGet (l : List ℚ) (i : ℕ) : Except PyError ℚ :=
  if h : i < l.length then .ok (l.get ⟨i, h⟩) else .error .indexError

/-- Elementwise numpy addition of two one-dimensional arrays, including
broadcasting: equal lengths add pointwise, a length-one array is stretched to
the other array's length, and any other shape combination raises ValueError. -/
def npAdd (xs ys : List ℚ) : Except PyError (List ℚ) :=
  if xs.length = ys.length then .ok (List.zipWith (· + ·) xs ys)
  else if xs.length = 1 then .ok (ys.map (fun y => xs.headD 0 + y))
  else if ys.length = 1 then .ok (xs.map (fun x => x + ys.headD 0))
  else .error .broadcastError

/-- Elementwise weighted sum r0 * xs + r1 * ys of two equal-length arrays, the
shape every combined-outcome computation of the repository produces. -/
def combineArrays (r0 r1 : ℚ) (xs ys : List ℚ) : List ℚ :=
  List.zipWith (fun x y => r0 * x + r1 * y) xs ys

/-- Elementwise cast of a rational array to the reals (the Python floats are
modelled as exact values throughout). -/
def castList (xs : List ℚ) : List ℝ := xs.map (Rat.cast : ℚ → ℝ)

/-- scipy.stats.gmean: the exponential of the mean of the logarithms.  The
scipy routine is total in the sense that it never raises: nonpositive inputs
flow through float log as nan or -inf, they do not abort the computation. -/
noncomputable def scipyGmean (xs : List ℝ) : ℝ :=
  Real.exp ((xs.map Real.log).sum / xs.length)

/-- Python str.lower(), modelled as a character map over the string's data so
that it reduces in the kernel (String.mapAux does not). -/
def pyLower (s : String) : String := ⟨s.data.map Char.toLower⟩

/-- A Bet of src/modules/bet.py: name, results, weights, and the derived
outcomes and arithmetic mean that `__init__` computes and stores. -/
structure Bet where
  name : String
  results : List ℚ
  weights : List ℤ
  outcomes : List ℚ
  arith_mean : ℚ
deriving DecidableEq

/-- Bet.calculate_outcomes: for i in range(len(weights)), np.repeat results[i]
weights[i] times and concatenate everything in input order.  Indexing is
modelled with a default value; the constructor's equal-length check keeps every
index within bounds. -/
def calculate_outcomes (results : List ℚ) (weights : List ℤ) : List ℚ :=
  (List.range weights.length).flatMap
    (fun i => List.replicate (weights.getD i 0).toNat (results.getD i 0))

/-- Bet.calculate_arith_mean: (np.mean(outcomes) - 1) * 100. -/
def calculate_arith_mean (outcomes : List ℚ) : ℚ := (listMean outcomes - 1) * 100

/-- Bet.calculate_geom_mean: (gmean(outcomes) - 1) * 100, over the reals. -/
noncomputable def calculate_geom_mean (outcomes : List ℚ) : ℝ :=
  (scipyGmean (castList outcomes) - 1) * 100

/-- The geom_mean attribute set by `Bet.__init__`.  It is modelled as a derived
attribute rather than a stored field: its computation is total (scipy gmean
raises nothing), the object is immutable after construction, and keeping the
real-valued field out of the structure keeps the constructor computable. -/
noncomputable def Bet.geom_mean (b : Bet) : ℝ := calculate_geom_mean b.outcomes

/-- Bet.__init__: the AssertionError checks in source order (equal lengths,
1 to 6 results, all weights integers >= 1; the name-is-a-string check holds by
typing), then the lowercased name and the derived fields. -/
def bet_build (name : String) (results : List ℚ) (weights : List ℤ) :
    Except PyError Bet :=
  if results.length = weights.length then
    if 1 ≤ results.length ∧ results.length ≤ 6 then
      if ∀ w ∈ weights, 1 ≤ w then
        .ok { name := pyLower name, results := results, weights := weights,
              outcomes := calculate_outcomes results weights,
              arith_mean := calculate_arith_mean (calculate_outcomes results weights) }
      else .error .invalidDistWeights
    else .error .invalidDistSize
  else .error .invalidDistLength

/-- A BetComparison of src/modules/bet.py: the two name keys, the two Bet
objects as `weighted_average` reads them back out of the instance dictionary,
the ratio, and the combined quantities.  Storage is by `__dict__[bet.name]`, so
the key bet1.name holds bet2 whenever the two names coincide: the second store
overwrites the first.  The model covers bet names that do not collide with the
comparison's own fixed attribute names. -/
structure BetComparison where
  bet1_name : String
  bet2_name : String
  stored1 : Bet
  stored2 : Bet
  ratio : List ℚ
  results : List ℚ
  arith_mean_combined : ℚ
  cost : ℚ
deriving DecidableEq

/-- geom_mean_combined of BetComparison.weighted_average:
(gmean(results) - 1) * 100, derived from the stored combined results. -/
noncomputable def BetComparison.geom_mean_combined (c : BetComparison) : ℝ :=
  (scipyGmean (castList c.results) - 1) * 100

/-- net of BetComparison.weighted_average: geom_mean_combined minus the two
geometric means read through the name-keyed storage. -/
noncomputable def BetComparison.net (c : BetComparison) : ℝ :=
  c.geom_mean_combined - c.stored1.geom_mean - c.stored2.geom_mean

/-- The bet that `self.__dict__[self.bet1_name]` holds after the constructor
stored both bets by name: bet2 overwrote bet1 under the shared key whenever the
two names coincide, otherwise bet1 is still there.  The key bet2_name always
holds bet2. -/
def storedFst (bet1 bet2 : Bet) : Bet :=
  if bet1.name = bet2.name then bet2 else bet1

/-- BetComparison.__init__ together with weighted_average: the ratio shape and
ratio sum asserts, the name-keyed storage of the two bets, then
results = ratio[0] * bet1.outcomes + ratio[1] * bet2.outcomes (a numpy add, so
with broadcasting) where both operands are read back through the name keys,
the combined arithmetic mean, and the cost. -/
def betComparison_build (bet1 bet2 : Bet) (ratio : List ℚ) :
    Except PyError BetComparison :=
  if ratio.length = 2 then
    if npIsClose ratio.sum 1 then
      match npAdd ((storedFst bet1 bet2).outcomes.map (fun x => ratio.getD 0 0 * x))
          (bet2.outcomes.map (fun x => ratio.getD 1 0 * x)) with
      | .error e => .error e
      | .ok results =>
          .ok { bet1_name := bet1.name, bet2_name := bet2.name,
                stored1 := storedFst bet1 bet2, stored2 := bet2, ratio := ratio,
                results := results,
                arith_mean_combined := (listMean results - 1) * 100,
                cost := (listMean results - 1) * 100 -
                  (storedFst bet1 bet2).arith_mean - bet2.arith_mean }
    else .error .invalidRatioSum
  else .error .invalidRatioLength

/-- combined_outcomes of src/modules/kellycriterion.py:
ratio[0] * dice + ratio[1] * cash, with Python indexing and numpy addition and
no validation of its own. -/
def combined_outcomes (dice cash ratio : List ℚ) : Except PyError (List ℚ) :=
  match pyListGet ratio 0, pyListGet ratio 1 with
  | .ok r0, .ok r1 => npAdd (dice.map (fun x => r0 * x)) (cash.map (fun x => r1 * x))
  | .error e, _ => .error e
  | _, .error e => .error e

/-- Result dictionary of weighted_arith_mean. -/
structure ArithDict where
  arith_mean_dice : ℚ
  arith_mean_cash : ℚ
  arith_mean_combined : ℚ
  cost : ℚ
deriving DecidableEq

/-- weighted_arith_mean of kellycriterion.py: no validation, just the three
rescaled means and the cost. -/
def weighted_arith_mean (dice cash ratio : List ℚ) : Except PyError ArithDict :=
  match pyListGet ratio 0, pyListGet ratio 1 with
  | .ok r0, .ok r1 =>
    match npAdd (dice.map (fun x => r0 * x)) (cash.map (fun x => r1 * x)) with
    | .ok comb =>
        .ok { arith_mean_dice := (listMean dice - 1) * 100,
              arith_mean_cash := (listMean cash - 1) * 100,
              arith_mean_combined := (listMean comb - 1) * 100,
              cost := (listMean comb - 1) * 100 - (listMean dice - 1) * 100 -
                (listMean cash - 1) * 100 }
    | .error e => .error e
  | .error e, _ => .error e
  | _, .error e => .error e

/-- Result dictionary of weighted_geom_mean. -/
structure GeomDict where
  geom_mean_dice : ℝ
  geom_mean_cash : ℝ
  geom_mean_combined : ℝ
  net : ℝ

/-- weighted_geom_mean of kellycriterion.py: the equal-length assert, then the
np.isclose(np.sum(ratio), 1) assert, then the three geometric means and the
net.  Ratio indexing happens after the asserts, as in the source. -/
noncomputable def weighted_geom_mean (dice cash ratio : List ℚ) :
    Except PyError GeomDict :=
  if dice.length = cash.length then
    if npIsClose ratio.sum 1 then
      match pyListGet ratio 0, pyListGet ratio 1 with
      | .ok r0, .ok r1 =>
          match npAdd (dice.map (fun x => r0 * x)) (cash.map (fun x => r1 * x)) with
          | .ok comb =>
              .ok { geom_mean_dice := calculate_geom_mean dice,
                    geom_mean_cash := calculate_geom_mean cash,
                    geom_mean_combined := calculate_geom_mean comb,
                    net := calculate_geom_mean comb - calculate_geom_mean dice -
                      calculate_geom_mean cash }
          | .error e => .error e
      | .error e, _ => .error e
      | _, .error e => .error e
    else .error .invalidRatioSum
  else .error .lengthMismatch

/-- Combined geometric mean as a pure value: the geom_mean_combined entry that
weighted_geom_mean returns on valid equal-length input. -/
noncomputable def geom_mean_combined_val (dice cash : List ℚ) (r0 r1 : ℚ) : ℝ :=
  calculate_geom_mean (combineArrays r0 r1 dice cash)

/-- np.arange(0, 1.01, 0.01) of plot_kelly_optimal: the 101 ratios
0, 0.01, ..., 1 in ascending order. -/
def kellyRatios : List ℚ := (List.range 101).map (fun (i : ℕ) => (i : ℚ) / 100)

/-- The full sweep curve of plot_kelly_optimal: the combined geometric mean at
each of the 101 ratios, in ascending ratio order. -/
noncomputable def kellyCurve (dice cash : List ℚ) : List ℝ :=
  kellyRatios.map (fun r => geom_mean_combined_val dice cash r (1 - r))

/-- Python max over a list of floats (junk value 0 on the empty list, where
Python would raise; the sweep list is never empty). -/
noncomputable def pyMax (l : List ℝ) : ℝ :=
  match l with
  | [] => 0
  | x :: xs => xs.foldl max x

/-- Python list.index: the first position holding the given value. -/
noncomputable def pyIndex (l : List ℝ) (a : ℝ) : ℕ := List.indexOf a l

/-- plot_kelly_optimal of kellycriterion.py, stripped of the rendering: sweep
the 101 ratios, collect geom_mean_combined of weighted_geom_mean for
[r, 1 - r], then max_mean = max(geom_means) and
max_ratio = ratios[geom_means.index(max_mean)]. -/
noncomputable def plot_kelly_optimal_run (dice cash : List ℚ) :
    Except PyError (ℚ × ℝ) := do
  let gms ← kellyRatios.mapM
    (fun r => (weighted_geom_mean dice cash [r, 1 - r]).map
      (fun d => d.geom_mean_combined))
  .ok (kellyRatios.getD (pyIndex gms (pyMax gms)) 0, pyMax gms)

/-- A Bet whose stored arithmetic-mean field agrees with its stored outcomes,
as holds for every bet produced by the constructor. -/
def Bet.WF (b : Bet) : Prop := b.arith_mean = calculate_arith_mean b.outcomes

/-! Helper lemmas about the embedded operations. -/

lemma npIsClose_iff (a b : ℚ) :
    npIsClose a b = true ↔ |a - b| ≤ 1 / 100000000 + 1 / 100000 * |b| := by
  simp [npIsClose]

lemma npIsClose_one_of_small {s : ℚ} (h : |s - 1| ≤ 1 / 1000000000) :
    npIsClose s 1 = true := by
  rw [npIsClose_iff]
  have h2 : |(1 : ℚ)| = 1 := by norm_num
  rw [h2]
  linarith

lemma npIsClose_one_one : npIsClose 1 1 = true := by
  apply npIsClose_one_of_small
  norm_num

lemma npAdd_eq_zipWith (xs ys : List ℚ) (h : xs.length = ys.length) :
    npAdd xs ys = .ok (List.zipWith (· + ·) xs ys) := by
  simp [npAdd, h]

lemma zipWith_add_map_mul (r0 r1 : ℚ) (xs ys : List ℚ) :
    List.zipWith (· + ·) (xs.map (fun x => r0 * x)) (ys.map (fun y => r1 * y)) =
      combineArrays r0 r1 xs ys := by
  rw [combineArrays, List.zipWith_map]

lemma npAdd_scaled (r0 r1 : ℚ) (xs ys : List ℚ) (h : xs.length = ys.length) :
    npAdd (xs.map (fun x => r0 * x)) (ys.map (fun y => r1 * y)) =
      .ok (combineArrays r0 r1 xs ys) := by
  rw [npAdd_eq_zipWith _ _ (by simpa using h), zipWith_add_map_mul]

lemma combineArrays_one_zero (xs ys : List ℚ) (h : xs.length = ys.length) :
    combineArrays 1 0 xs ys = xs := by
  unfold combineArrays
  induction xs generalizing ys with
  | nil => simp
  | cons x xs ih =>
    cases ys with
    | nil => simp at h
    | cons y ys =>
      simp only [List.zipWith_cons_cons, List.length_cons] at h ⊢
      rw [ih ys (by omega)]
      norm_num

lemma combineArrays_self (r : ℚ) (xs : List ℚ) :
    combineArrays r (1 - r) xs xs = xs := by
  unfold combineArrays
  rw [List.zipWith_same]
  have h : ∀ x ∈ xs, r * x + (1 - r) * x = x := by
    intro x _
    ring
  calc xs.map (fun x => r * x + (1 - r) * x) = xs.map id := List.map_congr_left h
  _ = xs := List.map_id xs

/-! Lemmas about calculate_outcomes. -/

lemma calculate_outcomes_nil (rs : List ℚ) : calculate_outcomes rs [] = [] := by
  simp [calculate_outcomes]

lemma calculate_outcomes_cons (r : ℚ) (w : ℤ) (rs : List ℚ) (ws : List ℤ) :
    calculate_outcomes (r :: rs) (w :: ws) =
      List.replicate w.toNat r ++ calculate_outcomes rs ws := by
  unfold calculate_outcomes
  rw [List.length_cons, List.range_succ_eq_map, List.flatMap_cons, List.flatMap_map]
  simp [Function.comp_def]

lemma calculate_outcomes_eq_flatten_zip (rs : List ℚ) (ws : List ℤ)
    (h : rs.length = ws.length) :
    calculate_outcomes rs ws =
      ((rs.zip ws).map (fun p => List.replicate p.2.toNat p.1)).flatten := by
  induction ws generalizing rs with
  | nil =>
    cases rs with
    | nil => simp [calculate_outcomes_nil]
    | cons r rs => simp at h
  | cons w ws ih =>
    cases rs with
    | nil => simp at h
    | cons r rs =>
      rw [calculate_outcomes_cons, List.zip_cons_cons, List.map_cons, List.flatten_cons,
        ih rs (by simpa using h)]

lemma calculate_outcomes_length (rs : List ℚ) (ws : List ℤ)
    (h : rs.length = ws.length) (hw : ∀ w ∈ ws, 0 ≤ w) :
    ((calculate_outcomes rs ws).length : ℤ) = ws.sum := by
  induction ws generalizing rs with
  | nil =>
    cases rs with
    | nil => simp [calculate_outcomes_nil]
    | cons r rs => simp at h
  | cons w ws ih =>
    cases rs with
    | nil => simp at h
    | cons r rs =>
      rw [calculate_outcomes_cons]
      have h1 : rs.length = ws.length := by simpa using h
      have h2 : ∀ v ∈ ws, (0 : ℤ) ≤ v := fun v hv => hw v (List.mem_cons_of_mem _ hv)
      have h3 := ih rs h1 h2
      have h4 : (0 : ℤ) ≤ w := hw w (List.mem_cons_self _ _)
      simp only [List.length_append, List.length_replicate, List.sum_cons]
      push_cast
      rw [h3, Int.toNat_of_nonneg h4]

lemma count_calculate_outcomes_not_mem (a : ℚ) (rs : List ℚ) (ws : List ℤ)
    (h : rs.length = ws.length) (ha : a ∉ rs) :
    (calculate_outcomes rs ws).count a = 0 := by
  induction ws generalizing rs with
  | nil =>
    cases rs with
    | nil => simp [calculate_outcomes_nil]
    | cons r rs => simp at h
  | cons w ws ih =>
    cases rs with
    | nil => simp at h
    | cons r rs =>
      rw [calculate_outcomes_cons, List.count_append]
      have hra : r ≠ a := fun hr => ha (hr ▸ List.mem_cons_self _ _)
      have hta : a ∉ rs := fun hm => ha (List.mem_cons_of_mem _ hm)
      rw [ih rs (by simpa using h) hta, List.count_replicate]
      simp [hra]

lemma count_calculate_outcomes (rs : List ℚ) (ws : List ℤ)
    (h : rs.length = ws.length) (hnd : rs.Nodup) (i : ℕ) (hi : i < rs.length) :
    (calculate_outcomes rs ws).count (rs.get ⟨i, hi⟩) = (ws.getD i 0).toNat := by
  induction ws generalizing rs i with
  | nil =>
    cases rs with
    | nil => simp at hi
    | cons r rs => simp at h
  | cons w ws ih =>
    cases rs with
    | nil => simp at h
    | cons r rs =>
      rw [calculate_outcomes_cons, List.count_append]
      rcases List.nodup_cons.mp hnd with ⟨hrn, hnd2⟩
      cases i with
      | zero =>
        simp only [List.get_eq_getElem, List.getElem_cons_zero, List.getD_cons_zero]
        rw [count_calculate_outcomes_not_mem r rs ws (by simpa using h) hrn,
          List.count_replicate]
        simp
      | succ i =>
        have hi2 : i < rs.length := by simpa using hi
        have hmem : rs[i] ∈ rs := List.getElem_mem hi2
        have hne : ¬ (r = rs[i]) := fun he => hrn (he ▸ hmem)
        simp only [List.get_eq_getElem, List.getElem_cons_succ, List.getD_cons_succ]
        have hih := ih rs (by simpa using h) hnd2 i hi2
        simp only [List.get_eq_getElem] at hih
        rw [hih, List.count_replicate]
        simp [hne]

/-! Lemmas about bet_build. -/

lemma bet_build_ok (name : String) (rs : List ℚ) (ws : List ℤ)
    (h1 : rs.length = ws.length) (h2 : 1 ≤ rs.length) (h3 : rs.length ≤ 6)
    (h4 : ∀ w ∈ ws, 1 ≤ w) :
    bet_build name rs ws =
      .ok { name := pyLower name, results := rs, weights := ws,
            outcomes := calculate_outcomes rs ws,
            arith_mean := calculate_arith_mean (calculate_outcomes rs ws) } := by
  unfold bet_build
  rw [if_pos h1, if_pos (⟨h2, h3⟩ : 1 ≤ rs.length ∧ rs.length ≤ 6), if_pos h4]

lemma bet_build_ok_inv {name : String} {rs : List ℚ} {ws : List ℤ} {b : Bet}
    (h : bet_build name rs ws = .ok b) :
    b = { name := pyLower name, results := rs, weights := ws,
          outcomes := calculate_outcomes rs ws,
          arith_mean := calculate_arith_mean (calculate_outcomes rs ws) } ∧
    rs.length = ws.length ∧ 1 ≤ rs.length ∧ rs.length ≤ 6 ∧ ∀ w ∈ ws, 1 ≤ w := by
  unfold bet_build at h
  split_ifs at h with h1 h2 h3
  · cases h
    exact ⟨rfl, h1, h2.1, h2.2, h3⟩

lemma bet_build_wf {name : String} {rs : List ℚ} {ws : List ℤ} {b : Bet}
    (h : bet_build name rs ws = .ok b) : b.WF := by
  rw [(bet_build_ok_inv h).1]
  rfl

/-! Lemmas about betComparison_build. -/

lemma betComparison_build_ok_distinct (b1 b2 : Bet) (ratio : List ℚ)
    (hr2 : ratio.length = 2) (hrs : npIsClose ratio.sum 1 = true)
    (hne : b1.name ≠ b2.name) (hlen : b1.outcomes.length = b2.outcomes.length) :
    betComparison_build b1 b2 ratio =
      .ok { bet1_name := b1.name, bet2_name := b2.name,
            stored1 := b1, stored2 := b2, ratio := ratio,
            results := combineArrays (ratio.getD 0 0) (ratio.getD 1 0)
              b1.outcomes b2.outcomes,
            arith_mean_combined :=
              (listMean (combineArrays (ratio.getD 0 0) (ratio.getD 1 0)
                b1.outcomes b2.outcomes) - 1) * 100,
            cost :=
              (listMean (combineArrays (ratio.getD 0 0) (ratio.getD 1 0)
                b1.outcomes b2.outcomes) - 1) * 100 -
                b1.arith_mean - b2.arith_mean } := by
  unfold betComparison_build
  rw [if_pos hr2, if_pos hrs]
  have hs : storedFst b1 b2 = b1 := if_neg hne
  rw [hs, npAdd_scaled _ _ _ _ hlen]

lemma betComparison_build_alias (b1 b2 : Bet) (ratio : List ℚ)
    (heq : b1.name = b2.name) :
    betComparison_build b1 b2 ratio = betComparison_build b2 b2 ratio := by
  unfold betComparison_build storedFst
  rw [heq]
  simp

lemma npAdd_error_eq {xs ys : List ℚ} {e : PyError} (h : npAdd xs ys = .error e) :
    e = .broadcastError := by
  unfold npAdd at h
  split_ifs at h <;> simp_all

lemma betComparison_build_ratio_error (b1 b2 : Bet) (ratio : List ℚ) :
    (betComparison_build b1 b2 ratio = .error .invalidRatioLength ∨
      betComparison_build b1 b2 ratio = .error .invalidRatioSum) ↔
    ¬ (ratio.length = 2 ∧ npIsClose ratio.sum 1 = true) := by
  by_cases hr2 : ratio.length = 2
  · by_cases hrs : npIsClose ratio.sum 1 = true
    · constructor
      · unfold betComparison_build
        rw [if_pos hr2, if_pos hrs]
        rcases hnp : npAdd ((storedFst b1 b2).outcomes.map (fun x => ratio.getD 0 0 * x))
            (b2.outcomes.map (fun x => ratio.getD 1 0 * x)) with e | v
        · have he := npAdd_error_eq hnp
          subst he
          rintro (h | h) <;> simp at h
        · rintro (h | h) <;> simp at h
      · intro hcon
        exact absurd ⟨hr2, hrs⟩ hcon
    · have hbuild : betComparison_build b1 b2 ratio = .error .invalidRatioSum := by
        unfold betComparison_build
        rw [if_pos hr2, if_neg hrs]
      rw [hbuild]
      constructor
      · rintro _ ⟨h2, hcl⟩
        exact hrs hcl
      · intro _
        right
        rfl
  · have hbuild : betComparison_build b1 b2 ratio = .error .invalidRatioLength := by
      unfold betComparison_build
      rw [if_neg hr2]
    rw [hbuild]
    constructor
    · rintro _ ⟨h2, hcl⟩
      exact hr2 h2
    · intro _
      left
      rfl

/-! Lemmas about the geometric mean. -/

lemma log_list_prod (xs : List ℝ) (h : ∀ x ∈ xs, x ≠ 0) :
    Real.log xs.prod = (xs.map Real.log).sum := by
  induction xs with
  | nil => simp
  | cons x xs ih =>
    have hprod : xs.prod ≠ 0 :=
      List.prod_ne_zero (fun h0 => h 0 (List.mem_cons_of_mem _ h0) rfl)
    rw [List.prod_cons, Real.log_mul (h x (List.mem_cons_self _ _)) hprod,
      List.map_cons, List.sum_cons, ih (fun y hy => h y (List.mem_cons_of_mem _ hy))]

lemma scipyGmean_pos_eq (xs : List ℝ) (h : ∀ x ∈ xs, 0 < x) :
    scipyGmean xs = xs.prod ^ (1 / (xs.length : ℝ)) := by
  have hpos : 0 < xs.prod := List.prod_pos h
  rw [scipyGmean, Real.rpow_def_of_pos hpos,
    log_list_prod xs (fun x hx => ne_of_gt (h x hx)), mul_one_div]

lemma calculate_geom_mean_pos_eq (xs : List ℚ) (h : ∀ x ∈ xs, 0 < x) :
    calculate_geom_mean xs =
      ((castList xs).prod ^ (1 / (xs.length : ℝ)) - 1) * 100 := by
  have hpos : ∀ x ∈ castList xs, 0 < x := by
    intro x hx
    rcases List.mem_map.mp hx with ⟨q, hq, rfl⟩
    exact_mod_cast h q hq
  unfold calculate_geom_mean
  rw [scipyGmean_pos_eq _ hpos, castList, List.length_map]

/-! Lemmas about pyMax and pyIndex. -/

lemma le_foldl_max (t : List ℝ) (b : ℝ) : b ≤ t.foldl max b := by
  induction t generalizing b with
  | nil => exact le_refl b
  | cons c t ih => exact le_trans (le_max_left b c) (ih (max b c))

lemma mem_le_foldl_max (t : List ℝ) (b x : ℝ) (hx : x ∈ t) : x ≤ t.foldl max b := by
  induction t generalizing b with
  | nil => cases hx
  | cons c t ih =>
    rcases List.mem_cons.mp hx with rfl | hx2
    · exact le_trans (le_max_right b x) (le_foldl_max t (max b x))
    · exact ih (max b c) hx2

lemma foldl_max_mem (t : List ℝ) (b : ℝ) : t.foldl max b ∈ b :: t := by
  induction t generalizing b with
  | nil => simp
  | cons c t ih =>
    rw [List.foldl_cons]
    rcases List.mem_cons.mp (ih (max b c)) with he | hm
    · rcases max_choice b c with h1 | h1
      · rw [he, h1]
        exact List.mem_cons_self _ _
      · rw [he, h1]
        exact List.mem_cons_of_mem _ (List.mem_cons_self _ _)
    · exact List.mem_cons_of_mem _ (List.mem_cons_of_mem _ hm)

lemma le_pyMax (l : List ℝ) (x : ℝ) (hx : x ∈ l) : x ≤ pyMax l := by
  cases l with
  | nil => cases hx
  | cons a t =>
    rcases List.mem_cons.mp hx with rfl | hx2
    · exact le_foldl_max t x
    · exact mem_le_foldl_max t a x hx2

lemma pyMax_mem (l : List ℝ) (h : l ≠ []) : pyMax l ∈ l := by
  cases l with
  | nil => exact absurd rfl h
  | cons a t => exact foldl_max_mem t a

lemma pyMax_cons_replicate (n : ℕ) (v : ℝ) : pyMax (v :: List.replicate n v) = v := by
  show (List.replicate n v).foldl max v = v
  induction n with
  | zero => rfl
  | succ n ih => rw [List.replicate_succ, List.foldl_cons, max_self]; exact ih

lemma pyIndex_lt_length (l : List ℝ) (a : ℝ) (h : a ∈ l) : pyIndex l a < l.length :=
  List.indexOf_lt_length.mpr h

lemma pyIndex_getD (l : List ℝ) (a : ℝ) (h : a ∈ l) :
    l.getD (pyIndex l a) 0 = a := by
  rw [List.getD_eq_getElem l 0 (pyIndex_lt_length l a h)]
  exact List.getElem_indexOf (List.indexOf_lt_length.mpr h)

lemma pyIndex_min (l : List ℝ) (a : ℝ) (j : ℕ) (hj : j < pyIndex l a) :
    l.getD j 0 ≠ a := by
  induction l generalizing j with
  | nil => simp [pyIndex, List.indexOf] at hj
  | cons x xs ih =>
    by_cases hxa : x = a
    · rw [show pyIndex (x :: xs) a = 0 from List.indexOf_cons_eq xs hxa] at hj
      cases hj
    · rw [show pyIndex (x :: xs) a = (pyIndex xs a).succ from
        List.indexOf_cons_ne xs hxa] at hj
      cases j with
      | zero => exact hxa
      | succ j => exact ih j (Nat.lt_of_succ_lt_succ hj)

lemma pyIndex_cons_self (a : ℝ) (l : List ℝ) : pyIndex (a :: l) a = 0 :=
  List.indexOf_cons_self a l

/-! Lemmas about weighted_geom_mean and the Kelly sweep. -/

lemma pyListGet_pair_zero (a b : ℚ) : pyListGet [a, b] 0 = .ok a := rfl

lemma pyListGet_pair_one (a b : ℚ) : pyListGet [a, b] 1 = .ok b := rfl

lemma weighted_geom_mean_lengthMismatch (dice cash ratio : List ℚ)
    (h : dice.length ≠ cash.length) :
    weighted_geom_mean dice cash ratio = .error .lengthMismatch := by
  unfold weighted_geom_mean
  rw [if_neg h]

lemma weighted_geom_mean_ratioSum (dice cash ratio : List ℚ)
    (hlen : dice.length = cash.length) (h : ¬ npIsClose ratio.sum 1 = true) :
    weighted_geom_mean dice cash ratio = .error .invalidRatioSum := by
  unfold weighted_geom_mean
  rw [if_pos hlen, if_neg h]

lemma weighted_geom_mean_ok (dice cash : List ℚ) (r0 r1 : ℚ)
    (hlen : dice.length = cash.length) (hcl : npIsClose (r0 + r1) 1 = true) :
    weighted_geom_mean dice cash [r0, r1] =
      .ok { geom_mean_dice := calculate_geom_mean dice,
            geom_mean_cash := calculate_geom_mean cash,
            geom_mean_combined := geom_mean_combined_val dice cash r0 r1,
            net := geom_mean_combined_val dice cash r0 r1 -
              calculate_geom_mean dice - calculate_geom_mean cash } := by
  unfold weighted_geom_mean
  have hsum : ([r0, r1] : List ℚ).sum = r0 + r1 := by simp
  rw [if_pos hlen, hsum, if_pos hcl, pyListGet_pair_zero, pyListGet_pair_one]
  dsimp only
  rw [npAdd_scaled _ _ _ _ hlen]
  rfl

lemma mapM_ok {α β : Type} (f : α → Except PyError β) (g : α → β) (l : List α)
    (h : ∀ x ∈ l, f x = .ok (g x)) : l.mapM f = .ok (l.map g) := by
  induction l with
  | nil => rfl
  | cons x xs ih =>
    rw [List.mapM_cons, h x (List.mem_cons_self _ _),
      ih (fun y hy => h y (List.mem_cons_of_mem _ hy))]
    rfl

lemma kellyRatios_length : kellyRatios.length = 101 := by
  simp [kellyRatios]

lemma kellyRatios_ne_nil : kellyRatios ≠ [] := by
  intro h
  have h2 := congrArg List.length h
  rw [kellyRatios_length] at h2
  simp at h2

lemma kellyRatios_getD_zero : kellyRatios.getD 0 0 = 0 := by
  rw [kellyRatios, List.range_succ_eq_map]
  simp

lemma kellyRatios_sorted : kellyRatios.Sorted (· < ·) := by
  apply List.Pairwise.map
  · intro a b hab
    have hc : (a : ℚ) < b := by exact_mod_cast hab
    have h100 : (0 : ℚ) < 100 := by norm_num
    exact div_lt_div_of_pos_right hc h100
  · exact List.pairwise_lt_range 101

lemma kellyRatios_head_zero : (0 : ℚ) ∈ kellyRatios ∧ (1 : ℚ) ∈ kellyRatios := by
  constructor
  · apply List.mem_map.mpr
    exact ⟨0, List.mem_range.mpr (by norm_num), by norm_num⟩
  · apply List.mem_map.mpr
    exact ⟨100, List.mem_range.mpr (by norm_num), by norm_num⟩

lemma kellyCurve_length (dice cash : List ℚ) : (kellyCurve dice cash).length = 101 := by
  rw [kellyCurve, List.length_map, kellyRatios_length]

lemma kellyCurve_ne_nil (dice cash : List ℚ) : kellyCurve dice cash ≠ [] := by
  intro h
  have h2 := congrArg List.length h
  rw [kellyCurve_length] at h2
  simp at h2

lemma plot_kelly_optimal_run_eq (dice cash : List ℚ)
    (hlen : dice.length = cash.length) :
    plot_kelly_optimal_run dice cash =
      .ok (kellyRatios.getD
            (pyIndex (kellyCurve dice cash) (pyMax (kellyCurve dice cash))) 0,
          pyMax (kellyCurve dice cash)) := by
  unfold plot_kelly_optimal_run
  have hmap : kellyRatios.mapM
      (fun r => (weighted_geom_mean dice cash [r, 1 - r]).map
        (fun d => d.geom_mean_combined)) =
      .ok (kellyCurve dice cash) := by
    rw [kellyCurve]
    apply mapM_ok
    intro r _
    rw [weighted_geom_mean_ok dice cash r (1 - r) hlen
      (by rw [show r + (1 - r) = 1 by ring]; exact npIsClose_one_one)]
    rfl
  rw [hmap]
  rfl

/-! Concrete distributions used by witnesses and counterexamples, together
with evaluation lemmas for them. -/

lemma pyListGet_ok (l : List ℚ) (i : ℕ) (h : i < l.length) :
    pyListGet l i = .ok (l.get ⟨i, h⟩) := dif_pos h

lemma npIsClose_eval_sum_half : npIsClose ([1/2, 1/2] : List ℚ).sum 1 = true := by
  have h : ([1/2, 1/2] : List ℚ).sum = 1 := by
    norm_num [List.sum_cons, List.sum_nil]
  rw [h]
  exact npIsClose_one_one

lemma npIsClose_eval_sum_one_zero : npIsClose ([1, 0] : List ℚ).sum 1 = true := by
  have h : ([1, 0] : List ℚ).sum = 1 := by
    norm_num [List.sum_cons, List.sum_nil]
  rw [h]
  exact npIsClose_one_one

/-- A bet named "w" paying out 2, from one die face. -/
def betTwo : Bet :=
  { name := "w", results := [2], weights := [1], outcomes := [2], arith_mean := 100 }

/-- A bet named "c" paying out 4, from one die face. -/
def betFour : Bet :=
  { name := "c", results := [4], weights := [1], outcomes := [4], arith_mean := 300 }

lemma calculate_outcomes_single (r : ℚ) (w : ℤ) :
    calculate_outcomes [r] [w] = List.replicate w.toNat r := by
  rw [show ([r] : List ℚ) = r :: [] from rfl, show ([w] : List ℤ) = w :: [] from rfl,
    calculate_outcomes_cons, calculate_outcomes_nil, List.append_nil]

lemma betTwo_build : bet_build "w" [2] [1] = .ok betTwo := by
  rw [bet_build_ok "w" [2] [1] rfl (by norm_num) (by norm_num) (by norm_num)]
  have hout : calculate_outcomes [2] [1] = [2] := by
    rw [calculate_outcomes_single]
    rfl
  simp only [Except.ok.injEq, betTwo, Bet.mk.injEq, hout]
  refine ⟨by decide, trivial, trivial, trivial, ?_⟩
  norm_num [calculate_arith_mean, listMean, List.sum_cons, List.sum_nil]

lemma betTwo_wf : betTwo.WF := by
  norm_num [Bet.WF, betTwo, calculate_arith_mean, listMean, List.sum_cons, List.sum_nil]

lemma betFour_build : bet_build "c" [4] [1] = .ok betFour := by
  rw [bet_build_ok "c" [4] [1] rfl (by norm_num) (by norm_num) (by norm_num)]
  have hout : calculate_outcomes [4] [1] = [4] := by
    rw [calculate_outcomes_single]
    rfl
  simp only [Except.ok.injEq, betFour, Bet.mk.injEq, hout]
  refine ⟨by decide, trivial, trivial, trivial, ?_⟩
  norm_num [calculate_arith_mean, listMean, List.sum_cons, List.sum_nil]

lemma betFour_wf : betFour.WF := by
  norm_num [Bet.WF, betFour, calculate_arith_mean, listMean, List.sum_cons, List.sum_nil]

lemma kellyCurve_flat (dice : List ℚ) :
    kellyCurve dice dice = List.replicate 101 (calculate_geom_mean dice) := by
  rw [kellyCurve]
  have h : ∀ r ∈ kellyRatios,
      geom_mean_combined_val dice dice r (1 - r) = calculate_geom_mean dice := by
    intro r _
    rw [geom_mean_combined_val, combineArrays_self]
  calc kellyRatios.map (fun r => geom_mean_combined_val dice dice r (1 - r))
      = kellyRatios.map (fun _ => calculate_geom_mean dice) := List.map_congr_left h
  _ = List.replicate 101 (calculate_geom_mean dice) := by
      rw [List.map_const', kellyRatios_length]

/-! Claim C2: outcomes of a valid build. -/

/-- C2 (amended): for every valid build the outcomes array is the
concatenation, in input order, of each results[i] repeated weights[i] times,
and len(outcomes) = sum(weights); the per-value count property holds provided
the result values are pairwise distinct (with duplicated values the counts
pool, see the counterexample).  The build is a pure function of its inputs. -/
theorem C2_build_outcomes (name : String) (rs : List ℚ) (ws : List ℤ) (b : Bet)
    (hok : bet_build name rs ws = .ok b) :
    b.outcomes = ((rs.zip ws).map (fun p => List.replicate p.2.toNat p.1)).flatten ∧
    (b.outcomes.length : ℤ) = ws.sum ∧
    (rs.Nodup → ∀ i (hi : i < rs.length),
      (b.outcomes.count (rs.get ⟨i, hi⟩) : ℤ) = ws.getD i 0) := by
  obtain ⟨hb, hlen, h1, h6, hw⟩ := bet_build_ok_inv hok
  subst hb
  refine ⟨?_, ?_, ?_⟩
  · show calculate_outcomes rs ws = _
    exact calculate_outcomes_eq_flatten_zip rs ws hlen
  · show ((calculate_outcomes rs ws).length : ℤ) = ws.sum
    exact calculate_outcomes_length rs ws hlen
      (fun w hw2 => le_trans zero_le_one (hw w hw2))
  · intro hnd i hi
    show ((calculate_outcomes rs ws).count (rs.get ⟨i, hi⟩) : ℤ) = ws.getD i 0
    have hi2 : i < ws.length := hlen ▸ hi
    have hmem : ws.getD i 0 ∈ ws := by
      rw [List.getD_eq_getElem ws 0 hi2]
      exact List.getElem_mem hi2
    have hge : (0 : ℤ) ≤ ws.getD i 0 := le_trans zero_le_one (hw _ hmem)
    rw [count_calculate_outcomes rs ws hlen hnd i hi]
    exact Int.toNat_of_nonneg hge

/-- Witness for C2, at the concrete build of betTwo. -/
theorem C2_build_outcomes_witness :
    (betTwo.outcomes.length : ℤ) = ([1] : List ℤ).sum :=
  (C2_build_outcomes "w" [2] [1] betTwo betTwo_build).2.1

/-- C2 counterexample: with a duplicated result value the per-value count part
of the claim fails.  The build with results [2, 2] and weights [1, 2]
succeeds, and the value results[0] = 2 occurs 3 times in outcomes, not
weights[0] = 1 times. -/
theorem C2_counterexample :
    ∃ b : Bet, bet_build "d" [2, 2] [1, 2] = .ok b ∧
      b.outcomes = [2, 2, 2] ∧
      b.outcomes.count (([2, 2] : List ℚ).get ⟨0, by norm_num⟩) = 3 ∧
      ([1, 2] : List ℤ).getD 0 0 = 1 ∧ (3 : ℕ) ≠ 1 := by
  have hout : calculate_outcomes [2, 2] [1, 2] = [2, 2, 2] := by
    rw [show ([2, 2] : List ℚ) = 2 :: [2] from rfl,
      show ([1, 2] : List ℤ) = 1 :: [2] from rfl, calculate_outcomes_cons,
      calculate_outcomes_single]
    rfl
  refine ⟨_, bet_build_ok "d" [2, 2] [1, 2] rfl (by norm_num) (by norm_num)
    (by decide), ?_, ?_, rfl, by norm_num⟩
  · show calculate_outcomes [2, 2] [1, 2] = [2, 2, 2]
    exact hout
  · show (calculate_outcomes [2, 2] [1, 2]).count 2 = 3
    rw [hout]
    simp [List.count_cons]

/-! Claim C5: the geometric mean. -/

/-- C5 (amended): for outcomes that are all positive the geometric mean is the
product of the outcomes raised to 1/len(outcomes), rescaled as (g - 1) * 100.
The code performs no positivity check, however: construction succeeds under
the three documented checks regardless of the sign of the outcomes, and no
DomainError exists anywhere on this path (scipy gmean computes through float
log without raising). -/
theorem C5_geom_mean (name : String) (rs : List ℚ) (ws : List ℤ)
    (h1 : rs.length = ws.length) (h2 : 1 ≤ rs.length) (h3 : rs.length ≤ 6)
    (h4 : ∀ w ∈ ws, 1 ≤ w) :
    ∃ b : Bet, bet_build name rs ws = .ok b ∧
      ((∀ x ∈ b.outcomes, 0 < x) →
        b.geom_mean =
          ((castList b.outcomes).prod ^ (1 / (b.outcomes.length : ℝ)) - 1) * 100) := by
  refine ⟨_, bet_build_ok name rs ws h1 h2 h3 h4, ?_⟩
  intro hpos
  exact calculate_geom_mean_pos_eq _ hpos

/-- Witness for C5 at a build whose single outcome is negative: the build
still succeeds. -/
theorem C5_geom_mean_witness :
    ∃ b : Bet, bet_build "neg" [-1] [1] = .ok b ∧
      ((∀ x ∈ b.outcomes, 0 < x) →
        b.geom_mean =
          ((castList b.outcomes).prod ^ (1 / (b.outcomes.length : ℝ)) - 1) * 100) :=
  C5_geom_mean "neg" [-1] [1] rfl (by norm_num) (by norm_num) (by decide)

/-- C5 counterexample: a distribution containing an outcome below zero whose
construction, geometric mean included, completes without any error — the
claimed DomainError failure does not exist in the code. -/
theorem C5_counterexample :
    ∃ b : Bet, bet_build "neg" [-1] [1] = .ok b ∧ (-1 : ℚ) ∈ b.outcomes ∧
      ∀ e : PyError, bet_build "neg" [-1] [1] ≠ .error e := by
  have hout : calculate_outcomes [-1] [1] = [-1] := by
    rw [calculate_outcomes_single]
    rfl
  have hb := bet_build_ok "neg" [-1] [1] rfl (by norm_num) (by norm_num) (by decide)
  refine ⟨_, hb, ?_, ?_⟩
  · show (-1 : ℚ) ∈ calculate_outcomes [-1] [1]
    rw [hout]
    exact List.mem_singleton.mpr rfl
  · intro e he
    rw [hb] at he
    exact Except.noConfusion he

/-! Claim C7: arithmetic and geometric mean of a build. -/

/-- C7: for every valid build, arith_mean is (mean(outcomes) - 1) * 100 and,
on positive outcomes, geom_mean is (geometric_mean(outcomes) - 1) * 100 with
the geometric mean the product raised to 1/len; the coin example
build("coin", [0.5, 1.5], [1, 1]) yields outcomes [0.5, 1.5], arith_mean
exactly 0, and geom_mean equal to (sqrt(3/4) - 1) * 100, within 0.01 of
-13.40. -/
theorem C7_means (name : String) (rs : List ℚ) (ws : List ℤ) (b : Bet)
    (hok : bet_build name rs ws = .ok b) :
    b.arith_mean = (listMean b.outcomes - 1) * 100 ∧
    ((∀ x ∈ b.outcomes, 0 < x) →
      b.geom_mean =
        ((castList b.outcomes).prod ^ (1 / (b.outcomes.length : ℝ)) - 1) * 100) ∧
    (∃ bc : Bet, bet_build "coin" [1/2, 3/2] [1, 1] = .ok bc ∧
      bc.outcomes = [1/2, 3/2] ∧ bc.arith_mean = 0 ∧
      bc.geom_mean = (Real.sqrt (3/4) - 1) * 100 ∧
      |bc.geom_mean - (-134/10)| < 1/100) := by
  obtain ⟨hb, hlen, hx1, hx6, hwpos⟩ := bet_build_ok_inv hok
  subst hb
  refine ⟨rfl, fun hpos => calculate_geom_mean_pos_eq _ hpos, ?_⟩
  have hout : calculate_outcomes [1/2, 3/2] [1, 1] = [1/2, 3/2] := by
    rw [show ([1/2, 3/2] : List ℚ) = 1/2 :: [3/2] from rfl,
      show ([1, 1] : List ℤ) = 1 :: [1] from rfl, calculate_outcomes_cons,
      calculate_outcomes_single]
    rfl
  have hcoin := bet_build_ok "coin" [1/2, 3/2] [1, 1] rfl (by norm_num)
    (by norm_num) (by decide)
  have hgeom : calculate_geom_mean [1/2, 3/2] = (Real.sqrt (3/4) - 1) * 100 := by
    have hpos : ∀ x ∈ ([1/2, 3/2] : List ℚ), 0 < x := by
      intro x hx
      rcases List.mem_cons.mp hx with rfl | hx2
      · norm_num
      · rcases List.mem_singleton.mp hx2 with rfl
        norm_num
    rw [calculate_geom_mean_pos_eq _ hpos]
    have hprod : (castList [1/2, 3/2]).prod = (3/4 : ℝ) := by
      rw [castList]
      simp only [List.map_cons, List.map_nil, List.prod_cons, List.prod_nil]
      push_cast
      norm_num
    have hlen2 : (1 / ((([1/2, 3/2] : List ℚ)).length : ℝ)) = 1/2 := by
      norm_num
    rw [hprod, hlen2, Real.sqrt_eq_rpow]
  have hsqrt_lo : (0.866 : ℝ) < Real.sqrt (3/4) := by
    have hs := Real.sq_sqrt (show (0:ℝ) ≤ 3/4 by norm_num)
    have hnn := Real.sqrt_nonneg (3/4 : ℝ)
    nlinarith
  have hsqrt_hi : Real.sqrt (3/4) < 0.8661 := by
    have hs := Real.sq_sqrt (show (0:ℝ) ≤ 3/4 by norm_num)
    have hnn := Real.sqrt_nonneg (3/4 : ℝ)
    nlinarith
  refine ⟨_, hcoin, ?_, ?_, ?_, ?_⟩
  · show calculate_outcomes [1/2, 3/2] [1, 1] = [1/2, 3/2]
    exact hout
  · show calculate_arith_mean (calculate_outcomes [1/2, 3/2] [1, 1]) = 0
    rw [hout]
    norm_num [calculate_arith_mean, listMean, List.sum_cons, List.sum_nil]
  · show calculate_geom_mean (calculate_outcomes [1/2, 3/2] [1, 1]) =
      (Real.sqrt (3/4) - 1) * 100
    rw [hout, hgeom]
  · show |calculate_geom_mean (calculate_outcomes [1/2, 3/2] [1, 1]) -
      (-134/10)| < 1/100
    rw [hout, hgeom, abs_lt]
    constructor
    · nlinarith
    · nlinarith

/-- Witness for C7 at the coin build itself. -/
theorem C7_means_witness :
    ∃ bc : Bet, bet_build "coin" [1/2, 3/2] [1, 1] = .ok bc ∧
      bc.outcomes = [1/2, 3/2] ∧ bc.arith_mean = 0 ∧
      bc.geom_mean = (Real.sqrt (3/4) - 1) * 100 ∧
      |bc.geom_mean - (-134/10)| < 1/100 := by
  have hcoin := bet_build_ok "coin" [1/2, 3/2] [1, 1] rfl (by norm_num)
    (by norm_num) (by decide)
  exact (C7_means "coin" [1/2, 3/2] [1, 1] _ hcoin).2.2

/-! Claims C1, C8 and C9: the blend combinator. -/

lemma betComparison_build_ok_alias (b1 b2 : Bet) (ratio : List ℚ)
    (heq : b1.name = b2.name)
    (hr2 : ratio.length = 2) (hrs : npIsClose ratio.sum 1 = true) :
    betComparison_build b1 b2 ratio =
      .ok { bet1_name := b1.name, bet2_name := b2.name,
            stored1 := b2, stored2 := b2, ratio := ratio,
            results := combineArrays (ratio.getD 0 0) (ratio.getD 1 0)
              b2.outcomes b2.outcomes,
            arith_mean_combined :=
              (listMean (combineArrays (ratio.getD 0 0) (ratio.getD 1 0)
                b2.outcomes b2.outcomes) - 1) * 100,
            cost :=
              (listMean (combineArrays (ratio.getD 0 0) (ratio.getD 1 0)
                b2.outcomes b2.outcomes) - 1) * 100 -
                b2.arith_mean - b2.arith_mean } := by
  unfold betComparison_build
  rw [if_pos hr2, if_pos hrs]
  have hs : storedFst b1 b2 = b2 := if_pos heq
  rw [hs, npAdd_scaled _ _ _ _ rfl]

/-- Two bets sharing the lowercased name "x", used to exhibit the name-keyed
storage collision. -/
def betXa : Bet :=
  { name := "x", results := [2], weights := [1], outcomes := [2], arith_mean := 100 }

/-- Second same-named bet, with different outcomes than betXa. -/
def betXb : Bet :=
  { name := "x", results := [4], weights := [1], outcomes := [4], arith_mean := 300 }

/-- C1 (amended): for two distributions with distinct (lowercased) names,
equal-length outcomes and a valid two-element ratio, combine returns the
elementwise array ratio[0] * a.outcomes + ratio[1] * b.outcomes, the combined
means rescaled as (m - 1) * 100, cost = arith_mean_combined - a.arith_mean -
b.arith_mean and net = geom_mean_combined - a.geom_mean - b.geom_mean, as a
pure function of its inputs.  When the two names coincide the name-keyed
storage makes both operands resolve to b (see the counterexample and C9). -/
theorem C1_combine (b1 b2 : Bet) (ratio : List ℚ)
    (hne : b1.name ≠ b2.name)
    (hlen : b1.outcomes.length = b2.outcomes.length)
    (hr2 : ratio.length = 2) (hrs : npIsClose ratio.sum 1 = true) :
    ∃ c : BetComparison, betComparison_build b1 b2 ratio = .ok c ∧
      c.results = combineArrays (ratio.getD 0 0) (ratio.getD 1 0)
        b1.outcomes b2.outcomes ∧
      c.arith_mean_combined = (listMean c.results - 1) * 100 ∧
      c.geom_mean_combined = (scipyGmean (castList c.results) - 1) * 100 ∧
      c.cost = c.arith_mean_combined - b1.arith_mean - b2.arith_mean ∧
      c.net = c.geom_mean_combined - b1.geom_mean - b2.geom_mean :=
  ⟨_, betComparison_build_ok_distinct b1 b2 ratio hr2 hrs hne hlen,
    rfl, rfl, rfl, rfl, rfl⟩

/-- Witness for C1 at two concrete one-outcome bets and the 50:50 ratio. -/
theorem C1_combine_witness :
    ∃ c : BetComparison, betComparison_build betTwo betFour [1/2, 1/2] = .ok c ∧
      c.results = combineArrays (([1/2, 1/2] : List ℚ).getD 0 0)
        (([1/2, 1/2] : List ℚ).getD 1 0) betTwo.outcomes betFour.outcomes ∧
      c.arith_mean_combined = (listMean c.results - 1) * 100 ∧
      c.geom_mean_combined = (scipyGmean (castList c.results) - 1) * 100 ∧
      c.cost = c.arith_mean_combined - betTwo.arith_mean - betFour.arith_mean ∧
      c.net = c.geom_mean_combined - betTwo.geom_mean - betFour.geom_mean :=
  C1_combine betTwo betFour [1/2, 1/2] (by decide) rfl rfl npIsClose_eval_sum_half

/-- C1 counterexample: two bets whose lowercased names coincide ("X" and "x").
The combined array is built from b2's outcomes in both operand positions,
[4], not from ratio[0] * a + ratio[1] * b, which would be [3]. -/
theorem C1_counterexample :
    ∃ (b1 b2 : Bet),
      bet_build "X" [2] [1] = .ok b1 ∧ bet_build "x" [4] [1] = .ok b2 ∧
      (betComparison_build b1 b2 [1/2, 1/2]).map (fun c => c.results) = .ok [4] ∧
      combineArrays (1/2) (1/2) b1.outcomes b2.outcomes = [3] ∧
      ([4] : List ℚ) ≠ [3] := by
  refine ⟨_, _,
    bet_build_ok "X" [2] [1] rfl (by norm_num) (by norm_num) (by decide),
    bet_build_ok "x" [4] [1] rfl (by norm_num) (by norm_num) (by decide),
    ?_, ?_, by norm_num⟩
  · rw [betComparison_build_ok_alias _ _ [1/2, 1/2] (by decide) rfl npIsClose_eval_sum_half]
    simp only [Except.map]
    congr 1
    show combineArrays (1/2) (1/2) (calculate_outcomes [4] [1])
      (calculate_outcomes [4] [1]) = [4]
    rw [calculate_outcomes_single]
    show combineArrays (1/2) (1/2) [4] [4] = [4]
    norm_num [combineArrays]
  · show combineArrays (1/2) (1/2) (calculate_outcomes [2] [1])
      (calculate_outcomes [4] [1]) = [3]
    rw [calculate_outcomes_single, calculate_outcomes_single]
    show combineArrays (1/2) (1/2) [2] [4] = [3]
    norm_num [combineArrays]

/-- C8 (amended): for two distributions with distinct (lowercased) names and
equal-length outcomes, combining with the ratio [1, 0] reproduces the first
operand exactly: the combined array is a.outcomes, the combined arithmetic
mean is a.arith_mean, and cost = -b.arith_mean.  When the names coincide the
combined array is built from b instead (see the counterexample). -/
theorem C8_identity_ratio (b1 b2 : Bet)
    (hne : b1.name ≠ b2.name) (hwf : b1.WF)
    (hlen : b1.outcomes.length = b2.outcomes.length) :
    ∃ c : BetComparison, betComparison_build b1 b2 [1, 0] = .ok c ∧
      c.results = b1.outcomes ∧
      c.arith_mean_combined = b1.arith_mean ∧
      c.cost = - b2.arith_mean := by
  have hco : combineArrays (([1, 0] : List ℚ).getD 0 0)
      (([1, 0] : List ℚ).getD 1 0) b1.outcomes b2.outcomes = b1.outcomes := by
    show combineArrays 1 0 b1.outcomes b2.outcomes = b1.outcomes
    exact combineArrays_one_zero _ _ hlen
  rw [Bet.WF, calculate_arith_mean] at hwf
  refine ⟨_, betComparison_build_ok_distinct b1 b2 [1, 0] rfl
    npIsClose_eval_sum_one_zero hne hlen, ?_, ?_, ?_⟩
  · exact hco
  · show (listMean (combineArrays (([1, 0] : List ℚ).getD 0 0)
      (([1, 0] : List ℚ).getD 1 0) b1.outcomes b2.outcomes) - 1) * 100 =
      b1.arith_mean
    rw [hco, hwf]
  · show (listMean (combineArrays (([1, 0] : List ℚ).getD 0 0)
      (([1, 0] : List ℚ).getD 1 0) b1.outcomes b2.outcomes) - 1) * 100 -
      b1.arith_mean - b2.arith_mean = - b2.arith_mean
    rw [hco, ← hwf]
    ring

/-- Witness for C8 at two concrete one-outcome bets. -/
theorem C8_identity_ratio_witness :
    ∃ c : BetComparison, betComparison_build betTwo betFour [1, 0] = .ok c ∧
      c.results = betTwo.outcomes ∧
      c.arith_mean_combined = betTwo.arith_mean ∧
      c.cost = - betFour.arith_mean :=
  C8_identity_ratio betTwo betFour (by decide) betTwo_wf rfl

/-- C8 counterexample: with coinciding lowercased names ("x" and "X") the
ratio [1, 0] does not reproduce the first operand: the combined array is [4],
built from b2, not b1's outcomes [2]. -/
theorem C8_counterexample :
    ∃ (b1 b2 : Bet),
      bet_build "x" [2] [1] = .ok b1 ∧ bet_build "X" [4] [1] = .ok b2 ∧
      (betComparison_build b1 b2 [1, 0]).map (fun c => c.results) = .ok [4] ∧
      b1.outcomes = [2] ∧ ([4] : List ℚ) ≠ [2] := by
  refine ⟨_, _,
    bet_build_ok "x" [2] [1] rfl (by norm_num) (by norm_num) (by decide),
    bet_build_ok "X" [4] [1] rfl (by norm_num) (by norm_num) (by decide),
    ?_, ?_, by norm_num⟩
  · rw [betComparison_build_ok_alias _ _ [1, 0] (by decide) rfl npIsClose_eval_sum_one_zero]
    simp only [Except.map]
    congr 1
    show combineArrays 1 0 (calculate_outcomes [4] [1])
      (calculate_outcomes [4] [1]) = [4]
    rw [calculate_outcomes_single]
    show combineArrays 1 0 [4] [4] = [4]
    norm_num [combineArrays]
  · show calculate_outcomes [2] [1] = [2]
    rw [calculate_outcomes_single]
    rfl

/-- C9: when the two bets' stored (lowercased) names are equal, the
constructor's name-keyed storage overwrites bet1 with bet2, and the whole
comparison is computed from bet2 in both operand positions — the comparison
equals the one built from (bet2, bet2), its stored operands are both bet2,
and results, cost and net all use bet2's outcomes and means twice, silently
ignoring bet1's data. -/
theorem C9_name_collision (b1 b2 : Bet) (ratio : List ℚ)
    (heq : b1.name = b2.name)
    (hr2 : ratio.length = 2) (hrs : npIsClose ratio.sum 1 = true) :
    betComparison_build b1 b2 ratio = betComparison_build b2 b2 ratio ∧
    ∃ c : BetComparison, betComparison_build b1 b2 ratio = .ok c ∧
      c.stored1 = b2 ∧ c.stored2 = b2 ∧
      c.results = combineArrays (ratio.getD 0 0) (ratio.getD 1 0)
        b2.outcomes b2.outcomes ∧
      c.arith_mean_combined = (listMean c.results - 1) * 100 ∧
      c.cost = c.arith_mean_combined - b2.arith_mean - b2.arith_mean ∧
      c.net = c.geom_mean_combined - b2.geom_mean - b2.geom_mean :=
  ⟨betComparison_build_alias b1 b2 ratio heq,
    _, betComparison_build_ok_alias b1 b2 ratio heq hr2 hrs,
    rfl, rfl, rfl, rfl, rfl, rfl⟩

/-- Witness for C9 at the two same-named bets betXa and betXb. -/
theorem C9_name_collision_witness :
    betComparison_build betXa betXb [1/2, 1/2] =
      betComparison_build betXb betXb [1/2, 1/2] ∧
    ∃ c : BetComparison, betComparison_build betXa betXb [1/2, 1/2] = .ok c ∧
      c.stored1 = betXb ∧ c.stored2 = betXb ∧
      c.results = combineArrays (([1/2, 1/2] : List ℚ).getD 0 0)
        (([1/2, 1/2] : List ℚ).getD 1 0) betXb.outcomes betXb.outcomes ∧
      c.arith_mean_combined = (listMean c.results - 1) * 100 ∧
      c.cost = c.arith_mean_combined - betXb.arith_mean - betXb.arith_mean ∧
      c.net = c.geom_mean_combined - betXb.geom_mean - betXb.geom_mean :=
  C9_name_collision betXa betXb [1/2, 1/2] rfl rfl npIsClose_eval_sum_half

/-! Claim C3: the length precondition of the combinator. -/

lemma npAdd_broadcast_error (xs ys : List ℚ) (h : xs.length ≠ ys.length)
    (h1 : xs.length ≠ 1) (h2 : ys.length ≠ 1) :
    npAdd xs ys = .error .broadcastError := by
  unfold npAdd
  rw [if_neg h, if_neg h1, if_neg h2]

lemma npAdd_exists_ok (xs ys : List ℚ)
    (h : xs.length = ys.length ∨ xs.length = 1 ∨ ys.length = 1) :
    ∃ v, npAdd xs ys = .ok v := by
  unfold npAdd
  split_ifs with h1 h2 h3
  · exact ⟨_, rfl⟩
  · exact ⟨_, rfl⟩
  · exact ⟨_, rfl⟩
  · rcases h with h | h | h
    · exact absurd h h1
    · exact absurd h h2
    · exact absurd h h3

lemma betComparison_build_ok_of_one (b1 b2 : Bet) (ratio : List ℚ)
    (hne : b1.name ≠ b2.name) (hr2 : ratio.length = 2)
    (hrs : npIsClose ratio.sum 1 = true)
    (hone : b1.outcomes.length = 1 ∨ b2.outcomes.length = 1) :
    ∃ c, betComparison_build b1 b2 ratio = .ok c := by
  unfold betComparison_build
  rw [if_pos hr2, if_pos hrs]
  have hs : storedFst b1 b2 = b1 := if_neg hne
  rw [hs]
  obtain ⟨v, hv⟩ := npAdd_exists_ok (b1.outcomes.map (fun x => ratio.getD 0 0 * x))
    (b2.outcomes.map (fun x => ratio.getD 1 0 * x))
    (by simp only [List.length_map]; exact Or.inr hone)
  rw [hv]
  exact ⟨_, rfl⟩

/-- A bet named "p" with two outcomes, used by the C3 witness. -/
def betPair : Bet :=
  { name := "p", results := [2], weights := [2], outcomes := [2, 2], arith_mean := 100 }

/-- A bet named "t" with three outcomes, used by the C3 witness. -/
def betTriple : Bet :=
  { name := "t", results := [2], weights := [3], outcomes := [2, 2, 2],
    arith_mean := 100 }

/-- C3 (amended): equal length is a checked precondition of the array-level
geometric combinator — weighted_geom_mean fails with LengthMismatchError on
differing lengths.  The object-level combinator BetComparison checks nothing
about lengths itself: differing outcome lengths reach numpy, which raises a
broadcast ValueError when neither array has length one, but silently
broadcasts and produces a result when one of them does. -/
theorem C3_length_check (dice cash : List ℚ) (b1 b2 : Bet) (ratio : List ℚ)
    (hmis : dice.length ≠ cash.length)
    (hne : b1.name ≠ b2.name)
    (hmis2 : b1.outcomes.length ≠ b2.outcomes.length)
    (hr2 : ratio.length = 2) (hrs : npIsClose ratio.sum 1 = true) :
    weighted_geom_mean dice cash ratio = .error .lengthMismatch ∧
    (b1.outcomes.length ≠ 1 → b2.outcomes.length ≠ 1 →
      betComparison_build b1 b2 ratio = .error .broadcastError) ∧
    (b1.outcomes.length = 1 ∨ b2.outcomes.length = 1 →
      ∃ c, betComparison_build b1 b2 ratio = .ok c) := by
  refine ⟨weighted_geom_mean_lengthMismatch dice cash ratio hmis, ?_,
    fun hone => betComparison_build_ok_of_one b1 b2 ratio hne hr2 hrs hone⟩
  intro h1 h2
  unfold betComparison_build
  rw [if_pos hr2, if_pos hrs]
  have hs : storedFst b1 b2 = b1 := if_neg hne
  rw [hs]
  have herr := npAdd_broadcast_error (b1.outcomes.map (fun x => ratio.getD 0 0 * x))
    (b2.outcomes.map (fun x => ratio.getD 1 0 * x))
    (by simpa using hmis2) (by simpa using h1) (by simpa using h2)
  rw [herr]

/-- Witness for C3 at two concrete bets with 2 and 3 outcomes, and at raw
arrays of length 1 and 2. -/
theorem C3_length_check_witness :
    betComparison_build betPair betTriple [1/2, 1/2] = .error .broadcastError :=
  ((C3_length_check [1] [1, 2] betPair betTriple [1/2, 1/2] (by norm_num)
    (by decide) (by decide) rfl npIsClose_eval_sum_half).2.1) (by decide) (by decide)

/-- C3 counterexample: two distributions whose outcome arrays have lengths 1
and 3; by the claim every such combine must fail, yet BetComparison silently
broadcasts the singleton and succeeds. -/
theorem C3_counterexample :
    ∃ (b1 b2 : Bet),
      bet_build "a" [1] [1] = .ok b1 ∧ bet_build "b" [2] [3] = .ok b2 ∧
      b1.outcomes.length ≠ b2.outcomes.length ∧
      ∃ c, betComparison_build b1 b2 [1/2, 1/2] = .ok c := by
  refine ⟨_, _,
    bet_build_ok "a" [1] [1] rfl (by norm_num) (by norm_num) (by decide),
    bet_build_ok "b" [2] [3] rfl (by norm_num) (by norm_num) (by decide),
    ?_, ?_⟩
  · show (calculate_outcomes [1] [1]).length ≠ (calculate_outcomes [2] [3]).length
    rw [calculate_outcomes_single, calculate_outcomes_single]
    decide
  · exact betComparison_build_ok_of_one _ _ _ (by decide) rfl
      npIsClose_eval_sum_half
      (Or.inl (by rw [calculate_outcomes_single]; rfl))

/-! Claim C4: the ratio check. -/

lemma npIsClose_one_iff (s : ℚ) :
    npIsClose s 1 = true ↔ |s - 1| ≤ 1001/100000000 := by
  rw [npIsClose_iff]
  norm_num [abs_one]

/-- C4 (amended): combine fails with InvalidRatioError exactly when the ratio
does not have exactly two elements or its sum fails the np.isclose test
against 1, whose default tolerance is |sum - 1| <= 1e-08 + 1e-05 * |1| — wider
than the claimed 1e-9.  In particular [0.6, 0.5] (sum 1.1) always fails, and
any two non-negative elements whose sum is within 1e-9 of 1 pass the ratio
check. -/
theorem C4_ratio_check (b1 b2 : Bet) (ratio : List ℚ) (r0 r1 : ℚ)
    (h0 : 0 ≤ r0) (h1 : 0 ≤ r1) (hclose : |r0 + r1 - 1| ≤ 1/1000000000) :
    ((betComparison_build b1 b2 ratio = .error .invalidRatioLength ∨
       betComparison_build b1 b2 ratio = .error .invalidRatioSum) ↔
      ¬ (ratio.length = 2 ∧ npIsClose ratio.sum 1 = true)) ∧
    betComparison_build b1 b2 [3/5, 1/2] = .error .invalidRatioSum ∧
    betComparison_build b1 b2 [r0, r1] ≠ .error .invalidRatioLength ∧
    betComparison_build b1 b2 [r0, r1] ≠ .error .invalidRatioSum := by
  have hsum : ([r0, r1] : List ℚ).sum = r0 + r1 := by simp
  have hcl : npIsClose ([r0, r1] : List ℚ).sum 1 = true := by
    rw [hsum]
    exact npIsClose_one_of_small hclose
  have hiff := betComparison_build_ratio_error b1 b2 [r0, r1]
  refine ⟨betComparison_build_ratio_error b1 b2 ratio, ?_, ?_, ?_⟩
  · unfold betComparison_build
    rw [if_pos (show ([3/5, 1/2] : List ℚ).length = 2 from rfl)]
    have hs : ¬ (npIsClose ([3/5, 1/2] : List ℚ).sum 1 = true) := by
      rw [show ([3/5, 1/2] : List ℚ).sum = 11/10 by
          norm_num [List.sum_cons, List.sum_nil],
        npIsClose_one_iff,
        show (11 : ℚ)/10 - 1 = 1/10 by norm_num,
        abs_of_nonneg (show (0 : ℚ) ≤ 1/10 by norm_num)]
      norm_num
    rw [if_neg hs]
  · intro h
    exact (hiff.mp (Or.inl h)) ⟨rfl, hcl⟩
  · intro h
    exact (hiff.mp (Or.inr h)) ⟨rfl, hcl⟩

/-- Witness for C4: the ratio [0.6, 0.5] is rejected with the sum error. -/
theorem C4_ratio_check_witness :
    betComparison_build betTwo betFour [3/5, 1/2] = .error .invalidRatioSum :=
  (C4_ratio_check betTwo betFour [3/5, 1/2] (1/2) (1/2) (by norm_num)
    (by norm_num)
    (by rw [show (1 : ℚ)/2 + 1/2 - 1 = 0 by norm_num]; simp)).2.1

/-- C4 counterexample: a ratio summing to 1 + 1e-6 — outside the claimed 1e-9
tolerance, so the claim requires an InvalidRatioError — is accepted, because
np.isclose uses the far wider default tolerance 1e-08 + 1e-05. -/
theorem C4_counterexample :
    ∃ (b1 b2 : Bet),
      bet_build "a" [2] [1] = .ok b1 ∧ bet_build "b" [4] [1] = .ok b2 ∧
      ¬ (|([1/2, 1/2 + 1/1000000] : List ℚ).sum - 1| ≤ 1/1000000000) ∧
      ∃ c, betComparison_build b1 b2 [1/2, 1/2 + 1/1000000] = .ok c := by
  have hsum : ([1/2, 1/2 + 1/1000000] : List ℚ).sum = 1 + 1/1000000 := by
    norm_num [List.sum_cons, List.sum_nil]
  refine ⟨_, _,
    bet_build_ok "a" [2] [1] rfl (by norm_num) (by norm_num) (by decide),
    bet_build_ok "b" [4] [1] rfl (by norm_num) (by norm_num) (by decide),
    ?_, ?_⟩
  · rw [hsum, show (1 : ℚ) + 1/1000000 - 1 = 1/1000000 by norm_num,
      abs_of_nonneg (show (0 : ℚ) ≤ 1/1000000 by norm_num)]
    norm_num
  · refine ⟨_, betComparison_build_ok_distinct _ _ [1/2, 1/2 + 1/1000000] rfl ?_
      (by decide) rfl⟩
    rw [hsum, npIsClose_one_iff,
      show (1 : ℚ) + 1/1000000 - 1 = 1/1000000 by norm_num,
      abs_of_nonneg (show (0 : ℚ) ≤ 1/1000000 by norm_num)]
    norm_num

/-! Claim C6: the Kelly-optimal ratio sweep. -/

/-- C6: the sweep ratios are exactly 0, 0.01, ..., 1 in strictly ascending
order; plot_kelly_optimal evaluates the combined geometric mean at each of
them (the curve), selects max_mean as the maximum of the curve and max_ratio
as the ratio at the curve's first index attaining it, every curve value is at
most max_mean, every index before the selected one attains strictly less, and
on two elementwise-equal outcome arrays the flat curve makes it return the
smallest ratio 0. -/
theorem C6_kelly_sweep (dice cash : List ℚ) (hlen : dice.length = cash.length) :
    kellyRatios.Sorted (· < ·) ∧
    (0 : ℚ) ∈ kellyRatios ∧ (1 : ℚ) ∈ kellyRatios ∧
    plot_kelly_optimal_run dice cash =
      .ok (kellyRatios.getD
            (pyIndex (kellyCurve dice cash) (pyMax (kellyCurve dice cash))) 0,
          pyMax (kellyCurve dice cash)) ∧
    (∀ x ∈ kellyCurve dice cash, x ≤ pyMax (kellyCurve dice cash)) ∧
    pyMax (kellyCurve dice cash) ∈ kellyCurve dice cash ∧
    (kellyCurve dice cash).getD
        (pyIndex (kellyCurve dice cash) (pyMax (kellyCurve dice cash))) 0 =
      pyMax (kellyCurve dice cash) ∧
    (∀ j < pyIndex (kellyCurve dice cash) (pyMax (kellyCurve dice cash)),
      (kellyCurve dice cash).getD j 0 ≠ pyMax (kellyCurve dice cash)) ∧
    (dice = cash →
      plot_kelly_optimal_run dice cash = .ok (0, calculate_geom_mean dice)) := by
  have hnil := kellyCurve_ne_nil dice cash
  have hmem := pyMax_mem _ hnil
  refine ⟨kellyRatios_sorted, kellyRatios_head_zero.1, kellyRatios_head_zero.2,
    plot_kelly_optimal_run_eq dice cash hlen,
    fun x hx => le_pyMax _ x hx, hmem,
    pyIndex_getD _ _ hmem,
    fun j hj => pyIndex_min _ _ j hj, ?_⟩
  intro heq
  subst heq
  rw [plot_kelly_optimal_run_eq dice dice rfl, kellyCurve_flat dice,
    show List.replicate 101 (calculate_geom_mean dice) =
      calculate_geom_mean dice :: List.replicate 100 (calculate_geom_mean dice)
      from rfl,
    pyMax_cons_replicate, pyIndex_cons_self, kellyRatios_getD_zero]

/-- Witness for C6: on the equal singleton arrays the sweep returns ratio 0
with the ratio-independent combined geometric mean. -/
theorem C6_kelly_sweep_witness :
    plot_kelly_optimal_run [2] [2] = .ok (0, calculate_geom_mean [2]) :=
  (C6_kelly_sweep [2] [2] rfl).2.2.2.2.2.2.2.2 rfl

/-! Claim C10: the arithmetic path has no validation. -/

lemma combined_outcomes_ok (dice cash ratio : List ℚ) (h0 : 0 < ratio.length)
    (h1 : 1 < ratio.length) (hlen : dice.length = cash.length) :
    combined_outcomes dice cash ratio =
      .ok (combineArrays (ratio.get ⟨0, h0⟩) (ratio.get ⟨1, h1⟩) dice cash) := by
  unfold combined_outcomes
  rw [pyListGet_ok ratio 0 h0, pyListGet_ok ratio 1 h1]
  dsimp only
  rw [npAdd_scaled _ _ _ _ hlen]

lemma weighted_arith_mean_ok (dice cash ratio : List ℚ) (h0 : 0 < ratio.length)
    (h1 : 1 < ratio.length) (hlen : dice.length = cash.length) :
    weighted_arith_mean dice cash ratio =
      .ok { arith_mean_dice := (listMean dice - 1) * 100,
            arith_mean_cash := (listMean cash - 1) * 100,
            arith_mean_combined :=
              (listMean (combineArrays (ratio.get ⟨0, h0⟩) (ratio.get ⟨1, h1⟩)
                dice cash) - 1) * 100,
            cost :=
              (listMean (combineArrays (ratio.get ⟨0, h0⟩) (ratio.get ⟨1, h1⟩)
                dice cash) - 1) * 100 - (listMean dice - 1) * 100 -
                (listMean cash - 1) * 100 } := by
  unfold weighted_arith_mean
  rw [pyListGet_ok ratio 0 h0, pyListGet_ok ratio 1 h1]
  dsimp only
  rw [npAdd_scaled _ _ _ _ hlen]

/-- C10: the arithmetic blending path performs no input validation — for all
equal-length arrays and any ratio with at least two elements, both
combined_outcomes and weighted_arith_mean return a result without raising,
whatever the ratio sums to; only weighted_geom_mean checks the two lengths
(LengthMismatchError) and the np.isclose ratio sum (InvalidRatioError). -/
theorem C10_arith_no_validation (dice cash ratio : List ℚ)
    (hlen : dice.length = cash.length) (hr : 2 ≤ ratio.length) :
    (∃ v, combined_outcomes dice cash ratio = .ok v) ∧
    (∃ d, weighted_arith_mean dice cash ratio = .ok d) ∧
    (¬ npIsClose ratio.sum 1 = true →
      weighted_geom_mean dice cash ratio = .error .invalidRatioSum) ∧
    (∀ dice2 cash2 : List ℚ, dice2.length ≠ cash2.length →
      weighted_geom_mean dice2 cash2 ratio = .error .lengthMismatch) := by
  have h0 : 0 < ratio.length := by omega
  have h1 : 1 < ratio.length := by omega
  exact ⟨⟨_, combined_outcomes_ok dice cash ratio h0 h1 hlen⟩,
    ⟨_, weighted_arith_mean_ok dice cash ratio h0 h1 hlen⟩,
    fun h => weighted_geom_mean_ratioSum dice cash ratio hlen h,
    fun d2 c2 h => weighted_geom_mean_lengthMismatch d2 c2 ratio h⟩

/-- Witness for C10 at a ratio with a negative element summing to 1/2. -/
theorem C10_arith_no_validation_witness :
    ∃ v, combined_outcomes [1, 2] [3, 4] [-1, 3/2] = .ok v :=
  (C10_arith_no_validation [1, 2] [3, 4] [-1, 3/2] rfl (by norm_num)).1

end SafeHaven
